import Mathlib

/-!
Verification of the KrishiSevak retrieval core (`backend/services/rag_service.py`).

The Python service is shallowly embedded: Python dict values become the
inductive `PyVal`; the knowledge base (a dict of dicts) becomes an ordered
association list; exceptions become `Except String`; external effects
(embedding model, FAISS k-nearest-neighbour queries, the filesystem probed
during initialization) become explicit environment records.  Floating-point
scores are modelled over `ℚ`: every score in the source is a small rational
(0.9, 0.8, 0.7, hit-count / term-count) and only orderings and equalities of
such values are at stake, which ℚ reflects exactly.
-/

namespace Krishi

/-- A Python value as stored in the knowledge base: a string, a list, or a
dict (insertion-ordered association list), mirroring the JSON-like data in
`_get_basic_knowledge_base` and `add_document`. -/
inductive PyVal where
  | str : String → PyVal
  | list : List PyVal → PyVal
  | dict : List (String × PyVal) → PyVal

/-- The knowledge base: `self.knowledge_base` is a dict whose values are
themselves dicts (category → item → data, FAISS metadata records, or
documents stored by `add_document`). -/
abbrev KB := List (String × List (String × PyVal))

/-- The single-quote character (used by Python `str()` of strings). -/
def sq : String := ⟨[Char.ofNat 39]⟩

/-- Join a list of strings with a separator, as Python `", ".join`. -/
def joinSep (sep : String) : List String → String
  | [] => ""
  | [s] => s
  | s :: rest => s ++ sep ++ joinSep sep rest

mutual

/-- Python `str()` of a `PyVal`, matching CPython repr of nested
str/list/dict values (strings single-quoted, `", "` separators,
`": "` after dict keys). -/
def pyReprVal : PyVal → String
  | .str s => sq ++ s ++ sq
  | .list vs => "[" ++ joinSep ", " (pyReprListParts vs) ++ "]"
  | .dict es => "\x7b" ++ joinSep ", " (pyReprDictParts es) ++ "\x7d"

/-- Reprs of the elements of a Python list. -/
def pyReprListParts : List PyVal → List String
  | [] => []
  | v :: vs => pyReprVal v :: pyReprListParts vs

/-- Reprs of the entries of a Python dict, each `'key': value`. -/
def pyReprDictParts : List (String × PyVal) → List String
  | [] => []
  | (k, v) :: es => (sq ++ k ++ sq ++ ": " ++ pyReprVal v) :: pyReprDictParts es

end

/-- Python `str.lower()` (ASCII case folding; all data in the service is
ASCII). -/
def pyLower (s : String) : String := ⟨s.data.map Char.toLower⟩

/-- Characters Python `str.split()` (no argument) splits on. -/
def isPySpace (c : Char) : Bool :=
  c = ' ' || c = '\t' || c = '\n' || c = '\r' || c = Char.ofNat 11 || c = Char.ofNat 12

/-- Helper for `pyTokens`: accumulates the current token (reversed). -/
def pyTokensAux : List Char → List Char → List (List Char)
  | [], cur => if cur.isEmpty then [] else [cur.reverse]
  | c :: cs, cur =>
    if isPySpace c then
      if cur.isEmpty then pyTokensAux cs [] else cur.reverse :: pyTokensAux cs []
    else pyTokensAux cs (c :: cur)

/-- Python `s.split()`: split on whitespace runs, dropping empty tokens. -/
def pyTokens (s : String) : List (List Char) := pyTokensAux s.data []

/-- Python `needle in hay` substring test on strings (as char lists). -/
def isSubstr (needle : List Char) : List Char → Bool
  | [] => needle.isEmpty
  | c :: cs => needle.isPrefixOf (c :: cs) || isSubstr needle cs

/-! ### Knowledge-base (Python dict) operations -/

/-- Python `kb[key]` / `key in kb` probe: first entry with the given key. -/
def kbLookup (kb : KB) (k : String) : Option (List (String × PyVal)) :=
  List.lookup k kb

/-- Python `key in kb`. -/
def kbHasKey (kb : KB) (k : String) : Bool := (kbLookup kb k).isSome

/-- Python `kb[key] = v`: replace in place if the key is present, else append
(insertion order preserved, as for a Python dict). -/
def kbSet (kb : KB) (k : String) (v : List (String × PyVal)) : KB :=
  if kbHasKey kb k then kb.map (fun p => if p.1 == k then (p.1, v) else p)
  else kb ++ [(k, v)]

/-- Replacement of one existing entry during a Python `dict.update`. -/
def replEntry (f : KB) (p : String × List (String × PyVal)) :
    String × List (String × PyVal) :=
  match List.lookup p.1 f with | some v => (p.1, v) | none => p

/-- Python `kb.update(f)` where `f` is a dict (so its keys are pairwise
distinct): values of existing keys are replaced in place, new keys are
appended in `f`'s order. -/
def kbUpdate (kb f : KB) : KB :=
  kb.map (replEntry f) ++ f.filter (fun q => !(kbHasKey kb q.1))

/-! ### The baseline knowledge set (`_get_basic_knowledge_base`) -/

def wheatData : List (String × PyVal) :=
  [("planting_season", .str "October-December"),
   ("harvesting_season", .str "March-May"),
   ("water_requirement", .str "450-650mm"),
   ("common_diseases", .list [.str "rust", .str "smut", .str "blight"]),
   ("fertilizer", .str "NPK 120:60:40 kg/ha")]

def riceData : List (String × PyVal) :=
  [("planting_season", .str "June-July"),
   ("harvesting_season", .str "October-November"),
   ("water_requirement", .str "1200-1500mm"),
   ("common_diseases", .list [.str "blast", .str "bacterial_blight", .str "brown_spot"]),
   ("fertilizer", .str "NPK 100:50:50 kg/ha")]

def bacterialBlightData : List (String × PyVal) :=
  [("crops_affected", .list [.str "rice"]),
   ("symptoms", .str "Water-soaked lesions on leaves"),
   ("treatment", .str "Copper-based fungicides"),
   ("prevention", .str "Use resistant varieties, proper field sanitation")]

def rustData : List (String × PyVal) :=
  [("crops_affected", .list [.str "wheat"]),
   ("symptoms", .str "Orange-red pustules on leaves"),
   ("treatment", .str "Propiconazole spray"),
   ("prevention", .str "Early sowing, resistant varieties")]

def ureaData : List (String × PyVal) :=
  [("composition", .str "46% N"),
   ("application", .str "Split doses during crop growth"),
   ("crops", .list [.str "wheat", .str "rice", .str "corn"])]

def dapData : List (String × PyVal) :=
  [("composition", .str "18:46:0 NPK"),
   ("application", .str "Basal application before sowing"),
   ("crops", .list [.str "wheat", .str "rice", .str "pulses"])]

/-- `RAGService._get_basic_knowledge_base`. -/
def basicKnowledgeBase : KB :=
  [("crops", [("wheat", .dict wheatData), ("rice", .dict riceData)]),
   ("diseases", [("bacterial_blight", .dict bacterialBlightData), ("rust", .dict rustData)]),
   ("fertilizers", [("urea", .dict ureaData), ("dap", .dict dapData)])]

/-! ### Search results -/

/-- The `content` field of a search result: either a resolved knowledge-base
record (a dict) or a synthetic advisory string. -/
inductive RContent where
  | entry : List (String × PyVal) → RContent
  | text : String → RContent

/-- One element of the list returned by `search`: the result dicts built at
lines 324–328, 355–363 and 381–399 of `rag_service.py`. -/
structure SearchResult where
  score : ℚ
  content : RContent
  rtype : Option String
  index : Option Int

/-! ### Keyword-fallback search (`_simple_keyword_search`) -/

def cropKeywords : List String := ["wheat", "rice", "corn", "tomato", "potato"]

def diseaseKeywords : List String := ["disease", "infection", "blight", "rust", "spot"]

def fertilizerKeywords : List String := ["fertilizer", "urea", "dap", "nutrient"]

def cropInfoMsg : String :=
  "For crop-specific information, please specify the crop name. Common crops include wheat, rice, corn, and vegetables."

def diseaseInfoMsg : String :=
  "For disease identification, please upload an image of the affected plant. Common diseases include bacterial blight, rust, and leaf spots."

def fertilizerInfoMsg : String :=
  "For fertilizer recommendations, consider soil testing and crop requirements. Common fertilizers include Urea (Nitrogen) and DAP (Phosphorus)."

/-- Python `any(keyword in query_lower for keyword in kws)`. -/
def anyKeywordIn (kws : List String) (ql : String) : Bool :=
  kws.any (fun w => isSubstr w.data ql.data)

/-- `RAGService._simple_keyword_search`. -/
def simple_keyword_search (query : String) (top_k : Nat) : List SearchResult :=
  let ql := pyLower query
  (((if anyKeywordIn cropKeywords ql then
      [⟨9/10, .text cropInfoMsg, some "crop_info", none⟩] else []) : List SearchResult)
   ++ ((if anyKeywordIn diseaseKeywords ql then
      [⟨4/5, .text diseaseInfoMsg, some "disease_info", none⟩] else []) : List SearchResult)
   ++ ((if anyKeywordIn fertilizerKeywords ql then
      [⟨7/10, .text fertilizerInfoMsg, some "fertilizer_info", none⟩] else []) : List SearchResult)).take top_k

/-! ### Simple text search (`_simple_text_search`) -/

/-- `f"{category} {item_name} {str(item_data)}".lower()`. -/
def contentText (category item : String) (data : PyVal) : List Char :=
  (pyLower (category ++ " " ++ item ++ " " ++ pyReprVal data)).data

/-- `for term in query_terms: if term in content_text: score += 1`. -/
def hitCount (terms : List (List Char)) (text : List Char) : Nat :=
  (terms.filter (fun t => isSubstr t text)).length

/-- The unsorted result list built by the nested loops of
`_simple_text_search` (one candidate per item with `score > 0`). -/
def textCandidates (kb : KB) (terms : List (List Char)) : List SearchResult :=
  kb.flatMap (fun ci =>
    ci.2.flatMap (fun it =>
      let hits := hitCount terms (contentText ci.1 it.1 it.2)
      if 0 < hits then
        [⟨(hits : ℚ) / (terms.length : ℚ),
          .entry [("category", .str ci.1), ("item", .str it.1), ("data", it.2)],
          some "text_search", none⟩]
      else []))

/-- Insert a result into a descending-sorted list, after every element of
strictly greater score (so elements of equal score keep their original
relative order, as under a stable sort). -/
def insertDesc (r : SearchResult) : List SearchResult → List SearchResult
  | [] => [r]
  | x :: xs => if r.score < x.score then x :: insertDesc r xs else r :: x :: xs

/-- Python `results.sort(key=lambda x: x["score"], reverse=True)`: a stable
sort by descending score.  Stability pins the output down uniquely, so this
structurally-recursive insertion sort computes exactly the list CPython's
stable `list.sort` produces. -/
def sortByScoreDesc (l : List SearchResult) : List SearchResult :=
  l.foldr insertDesc []

/-- `RAGService._simple_text_search`. -/
def simple_text_search (kb : KB) (query : String) (top_k : Nat) : List SearchResult :=
  let terms := pyTokens (pyLower query)
  (sortByScoreDesc (textCandidates kb terms)).take top_k

/-! ### Service state and external environments -/

/-- The embeddings model held by the service: the sentence-transformer or the
`MockEmbeddingsModel` substituted on load failure.  Both expose `encode`. -/
inductive EmbModel where
  | real : EmbModel
  | mock : EmbModel
deriving DecidableEq

/-- The value of `self.vector_db`: `None`, the `"simple_search"` sentinel,
the `"fallback"` sentinel, a FAISS index (has `search`/`add`), or a Pinecone
index handle (has neither `search` nor `add`). -/
inductive VectorDB where
  | none : VectorDB
  | simple : VectorDB
  | fallback : VectorDB
  | faiss : VectorDB
  | pinecone : VectorDB
deriving DecidableEq

/-- The mutable fields of `RAGService` the retrieval core reads and writes. -/
structure RAGState where
  vector_db : VectorDB
  embeddings_model : Option EmbModel
  knowledge_base : KB
  is_initialized : Bool

/-- The state built by `RAGService.__init__`. -/
def freshState : RAGState :=
  { vector_db := .none, embeddings_model := Option.none,
    knowledge_base := [], is_initialized := false }

/-- External effects of query-time operations: embedding a text (may raise),
the FAISS k-nearest-neighbour query `vector_db.search` (may raise; returns
the flattened `zip(scores[0], indices[0])` as (score, id) pairs), and
`vector_db.add` (may raise). -/
structure SearchEnv where
  encode : String → Except String (List ℚ)
  knn : List ℚ → Nat → Except String (List (ℚ × Int))
  idxAdd : Except String Unit

/-- External conditions observed during `initialize`: configuration, library
availability, outcomes of the filesystem/network operations of each backend
initializer, the persisted FAISS metadata (present only when both the index
file and the metadata file exist), the merged JSON dict found under
`data/knowledge_base` (absent when the directory is missing), and injection
points for an unhandled exception escaping each of the three steps of
`initialize` (reaching its outer `except`). -/
structure InitEnv where
  vectorDbType : String
  pineconeAvailable : Bool
  faissAvailable : Bool
  embedderLoadOk : Bool
  pineconeApiKeyPresent : Bool
  pineconeSetup : Except String Unit
  faissSetup : Except String Unit
  faissPersisted : Option KB
  fragments : Option KB
  loadKbFails : Bool
  raiseEmbed : Bool
  raiseBackend : Bool
  raiseLoad : Bool

/-! ### Initialization (`initialize` and its helpers) -/

/-- `RAGService._initialize_embeddings_model`: loads the sentence
transformer, or substitutes `MockEmbeddingsModel` on failure (its own
`except` swallows the error). -/
def initialize_embeddings_model (env : InitEnv) (st : RAGState) : RAGState :=
  { st with embeddings_model := some (if env.embedderLoadOk then .real else .mock) }

/-- `RAGService._initialize_simple_search`: sets the `"simple_search"`
sentinel and loads the baseline knowledge set
(`_load_simple_knowledge_base` assigns, it does not merge). -/
def initialize_simple_search (st : RAGState) : RAGState :=
  { st with vector_db := .simple, knowledge_base := basicKnowledgeBase }

/-- `RAGService._initialize_faiss`: loads a persisted index plus metadata if
both files exist, otherwise creates an empty index (the knowledge base is
reset to `{}` first, so `_build_initial_knowledge_base` iterates an empty
dict and adds nothing); any error falls through to the simple-search tier. -/
def initialize_faiss (env : InitEnv) (st : RAGState) : RAGState :=
  if !env.faissAvailable then initialize_simple_search st
  else match env.faissSetup with
    | .error _ => initialize_simple_search st
    | .ok _ =>
      match env.faissPersisted with
      | some meta => { st with vector_db := .faiss, knowledge_base := meta }
      | Option.none => { st with vector_db := .faiss, knowledge_base := [] }

/-- `RAGService._initialize_pinecone`: requires an API key; on any failure
falls through to `_initialize_faiss`.  On success only `vector_db` is set. -/
def initialize_pinecone (env : InitEnv) (st : RAGState) : RAGState :=
  if !env.pineconeApiKeyPresent then initialize_faiss env st
  else match env.pineconeSetup with
    | .ok _ => { st with vector_db := .pinecone }
    | .error _ => initialize_faiss env st

/-- The backend-selection dispatch of `initialize` (lines 54–60). -/
def selectBackend (env : InitEnv) (st : RAGState) : RAGState :=
  if pyLower env.vectorDbType = "pinecone" && env.pineconeAvailable then
    initialize_pinecone env st
  else if pyLower env.vectorDbType = "faiss" && env.faissAvailable then
    initialize_faiss env st
  else
    initialize_simple_search st

/-- `RAGService._load_knowledge_base`: merge the JSON fragments found under
`data/knowledge_base` into the current knowledge base; on an exception its
own handler assigns the baseline knowledge set. -/
def load_knowledge_base (env : InitEnv) (kb : KB) : KB :=
  if env.loadKbFails then basicKnowledgeBase
  else match env.fragments with
    | Option.none => kb
    | some f => kbUpdate kb f

/-- The `try` body of `RAGService.initialize` (steps 1–3, then the readiness
flag). -/
def initializeBody (env : InitEnv) (st : RAGState) : Except String RAGState :=
  if env.raiseEmbed then .error "exception escaping embeddings model setup"
  else
    let st1 := initialize_embeddings_model env st
    if env.raiseBackend then .error "exception escaping vector database setup"
    else
      let st2 := selectBackend env st1
      if env.raiseLoad then .error "exception escaping knowledge base loading"
      else
        let st3 := { st2 with knowledge_base := load_knowledge_base env st2.knowledge_base }
        .ok { st3 with is_initialized := true }

/-- `RAGService._initialize_fallback`: stub embedder, `"fallback"` sentinel,
baseline knowledge set, readiness flag set. -/
def fallbackState : RAGState :=
  { vector_db := .fallback, embeddings_model := some .mock,
    knowledge_base := basicKnowledgeBase, is_initialized := true }

/-- `RAGService.initialize`: the `try` body with its catch-all handler. -/
def initializeService (env : InitEnv) (st : RAGState) : RAGState :=
  match initializeBody env st with
  | .ok s => s
  | .error _ => fallbackState

/-! ### Query-time operations (`search`, `add_document`) -/

/-- Python `str(idx)` for a (possibly negative) FAISS index id. -/
def intStr (i : Int) : String := toString i

/-- Python `str(n)`. -/
def natStr (n : Nat) : String := toString n

/-- Lines 321–328 of `search`: resolve each (score, id) candidate against
the knowledge base, silently dropping unresolvable ids. -/
def resolveCandidates (kb : KB) (cands : List (ℚ × Int)) : List SearchResult :=
  cands.filterMap (fun c =>
    match kbLookup kb (intStr c.2) with
    | some d => some ⟨c.1, .entry d, Option.none, some c.2⟩
    | Option.none => Option.none)

/-- The `try` body of `RAGService.search` after the lazy initialization:
dispatch on the backend sentinels, then the vector path (embedding and the
k-nearest-neighbour query may raise), with the final keyword fall-through of
line 333. -/
def searchBody (env : SearchEnv) (st : RAGState) (query : String) (top_k : Nat) :
    Except String (List SearchResult) :=
  if st.vector_db = .fallback then .ok (simple_keyword_search query top_k)
  else if st.vector_db = .simple then .ok (simple_text_search st.knowledge_base query top_k)
  else
    match st.embeddings_model with
    | some _ =>
      match env.encode query with
      | .error e => .error e
      | .ok v =>
        if st.vector_db = .faiss then
          match env.knn v top_k with
          | .error e => .error e
          | .ok cands => .ok (resolveCandidates st.knowledge_base cands)
        else .ok (simple_keyword_search query top_k)
    | Option.none => .ok (simple_keyword_search query top_k)

/-- `RAGService.search`: lazy initialization, then the `try` body; the
catch-all `except` recomputes the answer via `_simple_keyword_search`. -/
def search (ienv : InitEnv) (env : SearchEnv) (st : RAGState) (query : String)
    (top_k : Nat) : List SearchResult :=
  let st1 := if st.is_initialized then st else initializeService ienv st
  match searchBody env st1 query top_k with
  | .ok r => r
  | .error _ => simple_keyword_search query top_k

/-- The document dict stored by `add_document`. -/
def docRecord (content : String) (metadata : List (String × PyVal)) (now : String) :
    List (String × PyVal) :=
  [("content", .str content), ("metadata", .dict metadata), ("added_at", .str now)]

/-- The `try` body of `RAGService.add_document` after the lazy
initialization: embed the content (may raise), insert into the index when
the backend has `add` (may raise), then store the document under
`str(len(knowledge_base))`; when the embeddings model has no `encode`, the
function falls off the end and returns `None` without mutating anything. -/
def add_documentBody (env : SearchEnv) (st : RAGState) (content : String)
    (metadata : List (String × PyVal)) (now : String) :
    Except String (Option (Nat × KB)) :=
  match st.embeddings_model with
  | some _ =>
    match env.encode content with
    | .error e => .error e
    | .ok _ =>
      match (if st.vector_db = .faiss then env.idxAdd else .ok ()) with
      | .error e => .error e
      | .ok _ =>
        let doc_id := st.knowledge_base.length
        .ok (some (doc_id, kbSet st.knowledge_base (natStr doc_id) (docRecord content metadata now)))
  | Option.none => .ok Option.none

/-- `RAGService.add_document`: lazy initialization, the `try` body, and the
catch-all `except` returning `None`; yields the returned id (if any) and the
state with the mutated knowledge base. -/
def add_document (ienv : InitEnv) (env : SearchEnv) (st : RAGState) (content : String)
    (metadata : List (String × PyVal)) (now : String) : Option Nat × RAGState :=
  let st1 := if st.is_initialized then st else initializeService ienv st
  match add_documentBody env st1 content metadata now with
  | .ok (some (i, kb)) => (some i, { st1 with knowledge_base := kb })
  | .ok Option.none => (Option.none, st1)
  | .error _ => (Option.none, st1)

/-! ### The stub embedder (`MockEmbeddingsModel`) -/

namespace MockEmbeddingsModel

/-- `MockEmbeddingsModel.encode`: `np.random.rand(len(texts), 384)`.  The
global NumPy random generator is modelled as a stream of draws together with
a cursor that each call advances past the values it consumed. -/
def encode (stream : Nat → ℚ) (pos : Nat) (texts : List String) :
    List (List ℚ) × Nat :=
  ((List.range texts.length).map (fun i =>
      (List.range 384).map (fun j => stream (pos + i * 384 + j))),
   pos + texts.length * 384)

end MockEmbeddingsModel

/-! ### Canonical environments for concrete scenarios -/

/-- A query-time environment in which every external capability fails
(no usable embedder, no usable index). -/
def idleSearchEnv : SearchEnv :=
  { encode := fun _ => .error "embedder unavailable",
    knn := fun _ _ => .error "index unavailable",
    idxAdd := .error "index unavailable" }

/-- A query-time environment whose embedder and index always succeed. -/
def okSearchEnv : SearchEnv :=
  { encode := fun _ => .ok [0], knn := fun _ _ => .ok [], idxAdd := .ok () }

/-- Initialization conditions of a fresh deployment with no FAISS library,
no persisted state and no knowledge fragments on disk: the service lands on
the simple-text tier over the baseline knowledge set. -/
def simpleInitEnv : InitEnv :=
  { vectorDbType := "faiss", pineconeAvailable := false, faissAvailable := false,
    embedderLoadOk := true, pineconeApiKeyPresent := false,
    pineconeSetup := .error "unavailable", faissSetup := .ok (),
    faissPersisted := Option.none, fragments := Option.none, loadKbFails := false,
    raiseEmbed := false, raiseBackend := false, raiseLoad := false }

/-- The freshly initialized simple-text service state. -/
def stSimple : RAGState := initializeService simpleInitEnv freshState

/-- A service state on the FAISS vector backend. -/
def stFaiss : RAGState :=
  { vector_db := .faiss, embeddings_model := some .mock,
    knowledge_base := basicKnowledgeBase, is_initialized := true }

/-- The result list is ordered by non-increasing score. -/
def ScoresDesc (l : List SearchResult) : Prop :=
  l.Pairwise (fun a b => b.score ≤ a.score)

/-- Keys of a knowledge-base dict are pairwise distinct (every Python dict
satisfies this). -/
def KeysNodup (f : KB) : Prop := (f.map Prod.fst).Nodup

/-- Initialization conditions under which an unhandled exception escapes the
backend-selection step and reaches `initialize`'s outer handler. -/
def raisingInitEnv : InitEnv :=
  { simpleInitEnv with raiseBackend := true }

/-- The `crops.rice` result of the simple-text search for
`"bacterial blight rice"` (all three terms hit). -/
def riceHit : SearchResult :=
  ⟨1, .entry [("category", .str "crops"), ("item", .str "rice"), ("data", .dict riceData)],
   some "text_search", Option.none⟩

/-- The `diseases.bacterial_blight` result of the simple-text search for
`"bacterial blight rice"` (all three terms hit). -/
def blightHit : SearchResult :=
  ⟨1, .entry [("category", .str "diseases"), ("item", .str "bacterial_blight"),
      ("data", .dict bacterialBlightData)], some "text_search", Option.none⟩

/-- The `crops.wheat` result of the simple-text search for
`"bacterial blight rice"` (one term of three hits). -/
def wheatHit : SearchResult :=
  ⟨1/3, .entry [("category", .str "crops"), ("item", .str "wheat"), ("data", .dict wheatData)],
   some "text_search", Option.none⟩

/-- The `fertilizers.urea` result of the simple-text search for
`"bacterial blight rice"` (the term `rice` hits its crop list). -/
def ureaHit : SearchResult :=
  ⟨1/3, .entry [("category", .str "fertilizers"), ("item", .str "urea"), ("data", .dict ureaData)],
   some "text_search", Option.none⟩

/-- The `fertilizers.dap` result of the simple-text search for
`"bacterial blight rice"` (the term `rice` hits its crop list). -/
def dapHit : SearchResult :=
  ⟨1/3, .entry [("category", .str "fertilizers"), ("item", .str "dap"), ("data", .dict dapData)],
   some "text_search", Option.none⟩

/-! ### Ordering facts about the sort and the three search tiers -/

theorem mem_insertDesc {y r : SearchResult} {l : List SearchResult} :
    y ∈ insertDesc r l ↔ y = r ∨ y ∈ l := by
  induction l with
  | nil => simp [insertDesc]
  | cons x xs ih =>
    by_cases h : r.score < x.score
    · simp only [insertDesc, if_pos h, List.mem_cons, ih]
      tauto
    · simp only [insertDesc, if_neg h, List.mem_cons]

theorem length_insertDesc (r : SearchResult) (l : List SearchResult) :
    (insertDesc r l).length = l.length + 1 := by
  induction l with
  | nil => rfl
  | cons x xs ih =>
    by_cases h : r.score < x.score
    · simp [insertDesc, if_pos h, ih]
    · simp [insertDesc, if_neg h]

theorem scoresDesc_insertDesc {r : SearchResult} {l : List SearchResult}
    (h : ScoresDesc l) : ScoresDesc (insertDesc r l) := by
  induction l with
  | nil => simp [insertDesc, ScoresDesc]
  | cons x xs ih =>
    rw [ScoresDesc, List.pairwise_cons] at h
    by_cases hlt : r.score < x.score
    · rw [ScoresDesc]
      simp only [insertDesc, if_pos hlt, List.pairwise_cons]
      refine ⟨?_, ih h.2⟩
      intro y hy
      rcases mem_insertDesc.mp hy with rfl | hy2
      · exact le_of_lt hlt
      · exact h.1 y hy2
    · rw [ScoresDesc]
      simp only [insertDesc, if_neg hlt, List.pairwise_cons]
      refine ⟨?_, h.1, h.2⟩
      intro y hy
      rcases List.mem_cons.mp hy with rfl | hy2
      · exact le_of_not_lt hlt
      · exact le_trans (h.1 y hy2) (le_of_not_lt hlt)

theorem scoresDesc_sortByScoreDesc (l : List SearchResult) :
    ScoresDesc (sortByScoreDesc l) := by
  induction l with
  | nil => simp [sortByScoreDesc, ScoresDesc]
  | cons x xs ih => exact scoresDesc_insertDesc ih

theorem length_sortByScoreDesc (l : List SearchResult) :
    (sortByScoreDesc l).length = l.length := by
  induction l with
  | nil => rfl
  | cons x xs ih => simp [sortByScoreDesc, length_insertDesc, ih.symm]

theorem mem_sortByScoreDesc {y : SearchResult} {l : List SearchResult} :
    y ∈ sortByScoreDesc l ↔ y ∈ l := by
  induction l with
  | nil => simp [sortByScoreDesc]
  | cons x xs ih =>
    simp only [sortByScoreDesc, List.foldr] at ih ⊢
    rw [mem_insertDesc, ih, List.mem_cons]

theorem scoresDesc_take {l : List SearchResult} (k : Nat) (h : ScoresDesc l) :
    ScoresDesc (l.take k) :=
  List.Pairwise.sublist (List.take_sublist k l) h

theorem keyword_search_length_le (q : String) (k : Nat) :
    (simple_keyword_search q k).length ≤ k := by
  simp only [simple_keyword_search]
  exact List.length_take_le k _

theorem keyword_search_sorted (q : String) (k : Nat) :
    ScoresDesc (simple_keyword_search q k) := by
  simp only [simple_keyword_search]
  apply scoresDesc_take
  rw [ScoresDesc]
  split <;> split <;> split <;> simp <;> norm_num

theorem text_search_length_le (kb : KB) (q : String) (k : Nat) :
    (simple_text_search kb q k).length ≤ k := by
  simp only [simple_text_search]
  exact List.length_take_le k _

theorem text_search_sorted (kb : KB) (q : String) (k : Nat) :
    ScoresDesc (simple_text_search kb q k) := by
  simp only [simple_text_search]
  exact scoresDesc_take k (scoresDesc_sortByScoreDesc _)

theorem resolve_scores_sublist (kb : KB) (cands : List (ℚ × Int)) :
    ((resolveCandidates kb cands).map SearchResult.score).Sublist (cands.map Prod.fst) := by
  induction cands with
  | nil => simp [resolveCandidates]
  | cons c cs ih =>
    simp only [resolveCandidates, List.filterMap_cons] at ih ⊢
    cases hk : kbLookup kb (intStr c.2) with
    | none => exact List.Sublist.cons _ ih
    | some d => exact List.Sublist.cons₂ _ ih

theorem resolve_length_le (kb : KB) (cands : List (ℚ × Int)) :
    (resolveCandidates kb cands).length ≤ cands.length :=
  List.length_filterMap_le _ _

theorem resolve_sorted (kb : KB) {cands : List (ℚ × Int)}
    (h : cands.Pairwise (fun a b => b.1 ≤ a.1)) :
    ScoresDesc (resolveCandidates kb cands) := by
  have h1 : (cands.map Prod.fst).Pairwise (fun x y => y ≤ x) :=
    List.pairwise_map.mpr h
  have h2 := List.Pairwise.sublist (resolve_scores_sublist kb cands) h1
  exact List.pairwise_map.mp h2

/-! ### Shared facts about initialization -/

theorem initializeBody_ok_ready {env : InitEnv} {st s : RAGState}
    (hb : initializeBody env st = .ok s) : s.is_initialized = true := by
  unfold initializeBody at hb
  split at hb
  · cases hb
  · split at hb
    · cases hb
    · split at hb
      · cases hb
      · cases hb
        rfl

theorem initializeService_ready (env : InitEnv) (st : RAGState) :
    (initializeService env st).is_initialized = true := by
  unfold initializeService
  cases hb : initializeBody env st with
  | error e => rfl
  | ok s => exact initializeBody_ok_ready hb

/-! ### Facts about dict assignment and dict update -/

theorem kbSet_fresh {kb : KB} {k : String} (h : kbHasKey kb k = false)
    (v : List (String × PyVal)) : kbSet kb k v = kb ++ [(k, v)] := by
  simp [kbSet, h]

theorem kbLookup_kbSet_fresh {kb : KB} {k : String} (h : kbHasKey kb k = false)
    (v : List (String × PyVal)) : kbLookup (kbSet kb k v) k = some v := by
  rw [kbSet_fresh h]
  unfold kbLookup
  rw [List.lookup_append]
  have h0 : List.lookup k kb = none := by
    unfold kbHasKey kbLookup at h
    simpa [Option.isSome_iff_exists] using h
  rw [h0]
  simp [List.lookup]

theorem replEntry_fst (f : KB) (p : String × List (String × PyVal)) :
    (replEntry f p).1 = p.1 := by
  unfold replEntry
  cases List.lookup p.1 f <;> rfl

theorem replEntry_idem (f : KB) (p : String × List (String × PyVal)) :
    replEntry f (replEntry f p) = replEntry f p := by
  unfold replEntry
  cases h : List.lookup p.1 f with
  | none => simp [h]
  | some v => simp [h]

theorem lookup_of_keysNodup {f : KB} (hf : KeysNodup f)
    {k : String} {v : List (String × PyVal)} (hm : (k, v) ∈ f) :
    List.lookup k f = some v := by
  induction f with
  | nil => cases hm
  | cons p ps ih =>
    obtain ⟨pk, pv⟩ := p
    rw [KeysNodup, List.map_cons, List.nodup_cons] at hf
    rcases List.mem_cons.mp hm with heq | hmem
    · rw [show k = pk from congrArg Prod.fst heq, show v = pv from congrArg Prod.snd heq]
      simp [List.lookup_cons]
    · have hk : (k == pk) = false := by
        refine beq_eq_false_iff_ne.mpr ?_
        intro hkk
        exact hf.1 (hkk ▸ (List.mem_map.mpr ⟨(k, v), hmem, rfl⟩))
      rw [List.lookup_cons, hk]
      exact ih hf.2 hmem

theorem kbHasKey_append (a b : KB) (k : String) :
    kbHasKey (a ++ b) k = (kbHasKey a k || kbHasKey b k) := by
  unfold kbHasKey kbLookup
  rw [List.lookup_append]
  cases List.lookup k a <;> simp

theorem kbHasKey_map_repl (f kb : KB) (k : String) :
    kbHasKey (kb.map (replEntry f)) k = kbHasKey kb k := by
  induction kb with
  | nil => rfl
  | cons p ps ih =>
    obtain ⟨pk, pv⟩ := p
    unfold kbHasKey kbLookup at ih ⊢
    rw [List.map_cons]
    rcases hre : replEntry f (pk, pv) with ⟨rk, rv⟩
    have hrk : rk = pk := by
      have h0 := replEntry_fst f (pk, pv)
      rw [hre] at h0
      exact h0
    subst hrk
    rw [List.lookup_cons, List.lookup_cons]
    cases hbeq : (k == rk) <;> simp [hbeq, ih]

theorem kbHasKey_of_mem {kb : KB} {q : String × List (String × PyVal)} (h : q ∈ kb) :
    kbHasKey kb q.1 = true := by
  induction kb with
  | nil => cases h
  | cons p ps ih =>
    obtain ⟨pk, pv⟩ := p
    unfold kbHasKey kbLookup at ih ⊢
    rw [List.lookup_cons]
    cases hbeq : (q.1 == pk) with
    | true => simp
    | false =>
      rcases List.mem_cons.mp h with rfl | hmem
      · simp at hbeq
      · simp [ih hmem]

theorem kbUpdate_idem (kb f : KB) (hf : KeysNodup f) :
    kbUpdate (kbUpdate kb f) f = kbUpdate kb f := by
  have hfilter : f.filter (fun q => !(kbHasKey (kbUpdate kb f) q.1)) = [] := by
    rw [List.filter_eq_nil_iff]
    intro q hq
    unfold kbUpdate
    rw [kbHasKey_append, kbHasKey_map_repl]
    by_cases h : kbHasKey kb q.1 = true
    · simp [h]
    · have hq2 : q ∈ f.filter (fun q => !(kbHasKey kb q.1)) :=
        List.mem_filter.mpr ⟨hq, by simp [Bool.not_eq_true] at h ⊢; exact h⟩
      simp [kbHasKey_of_mem hq2]
  have hmap : (kbUpdate kb f).map (replEntry f) = kbUpdate kb f := by
    unfold kbUpdate
    rw [List.map_append, List.map_map]
    congr 1
    · exact List.map_congr_left (fun p _ => replEntry_idem f p)
    · have hid : ∀ q ∈ f.filter (fun q => !(kbHasKey kb q.1)), replEntry f q = id q := by
        intro q hq
        have hqf : q ∈ f := (List.mem_filter.mp hq).1
        have hl : List.lookup q.1 f = some q.2 :=
          lookup_of_keysNodup hf (by rw [Prod.mk.eta]; exact hqf)
        show replEntry f q = q
        unfold replEntry
        rw [hl]
      rw [List.map_congr_left hid, List.map_id]
  show (kbUpdate kb f).map (replEntry f) ++ _ = kbUpdate kb f
  rw [hmap, hfilter, List.append_nil]

theorem load_knowledge_base_idem (env : InitEnv) (kb : KB)
    (hf : ∀ f, env.fragments = some f → KeysNodup f) :
    load_knowledge_base env (load_knowledge_base env kb) = load_knowledge_base env kb := by
  unfold load_knowledge_base
  by_cases hl : env.loadKbFails = true
  · simp [hl]
  · simp only [hl, Bool.false_eq_true, if_false]
    cases hfr : env.fragments with
    | none => rfl
    | some f => exact kbUpdate_idem kb f (hf f hfr)

theorem initialize_faiss_kb_const (env : InitEnv) :
    ∃ c, ∀ X : RAGState, (initialize_faiss env X).knowledge_base = c := by
  unfold initialize_faiss initialize_simple_search
  by_cases h3 : env.faissAvailable = true
  · cases hfs : env.faissSetup with
    | error e => exact ⟨basicKnowledgeBase, fun X => by simp [h3, hfs]⟩
    | ok u =>
      cases hper : env.faissPersisted with
      | none => exact ⟨[], fun X => by simp [h3, hfs, hper]⟩
      | some meta => exact ⟨meta, fun X => by simp [h3, hfs, hper]⟩
  · exact ⟨basicKnowledgeBase, fun X => by simp [h3]⟩

theorem selectBackend_kb_cases (env : InitEnv) :
    (∀ X : RAGState, (selectBackend env X).knowledge_base = X.knowledge_base) ∨
    (∃ c, ∀ X : RAGState, (selectBackend env X).knowledge_base = c) := by
  unfold selectBackend
  by_cases h1 : (pyLower env.vectorDbType = "pinecone" && env.pineconeAvailable) = true
  · unfold initialize_pinecone
    by_cases h2 : env.pineconeApiKeyPresent = true
    · cases hps : env.pineconeSetup with
      | ok u => left; intro X; simp [h1, h2, hps]
      | error e =>
        right
        obtain ⟨c, hc⟩ := initialize_faiss_kb_const env
        exact ⟨c, fun X => by simp [h1, h2, hps, hc X]⟩
    · right
      obtain ⟨c, hc⟩ := initialize_faiss_kb_const env
      exact ⟨c, fun X => by simp [h1, h2, hc X]⟩
  · by_cases h4 : (pyLower env.vectorDbType = "faiss" && env.faissAvailable) = true
    · right
      obtain ⟨c, hc⟩ := initialize_faiss_kb_const env
      exact ⟨c, fun X => by simp [h1, h4, hc X]⟩
    · right
      exact ⟨basicKnowledgeBase, fun X => by simp [h1, h4, initialize_simple_search]⟩

/-! ### Claim theorems -/

/-- C1: `search` never propagates an exception: the whole `try` body sits
under a catch-all handler, so `search` is a total function of its inputs
(modelled directly by the `match` in `Krishi.search`), and whenever the
vector-backed path fails — the query embedding raises, or the
k-nearest-neighbour query raises — the caller receives exactly the
keyword-fallback result for the same query and `top_k`. -/
theorem c1_search_degrades_on_vector_error (ienv : InitEnv) (env : SearchEnv)
    (st : RAGState) (q : String) (k : Nat) {m : EmbModel}
    (hinit : st.is_initialized = true)
    (hvdb : st.vector_db = VectorDB.faiss)
    (hm : st.embeddings_model = some m)
    (hfail : (∃ e, env.encode q = .error e) ∨
      (∃ v e, env.encode q = .ok v ∧ env.knn v k = .error e)) :
    search ienv env st q k = simple_keyword_search q k := by
  have hbody : ∃ e, searchBody env st q k = .error e := by
    rcases hfail with ⟨e, he⟩ | ⟨v, e, hv, he⟩
    · exact ⟨e, by simp [searchBody, hvdb, hm, he]⟩
    · exact ⟨e, by simp [searchBody, hvdb, hm, hv, he]⟩
  obtain ⟨e, he⟩ := hbody
  simp [search, hinit, he]

/-- Witness for C1: on a FAISS-backed state whose embedder raises, `search`
returns the keyword-fallback answer. -/
theorem c1_search_degrades_witness :
    stFaiss.is_initialized = true ∧ stFaiss.vector_db = VectorDB.faiss ∧
    stFaiss.embeddings_model = some EmbModel.mock ∧
    idleSearchEnv.encode "wheat" = .error "embedder unavailable" ∧
    search simpleInitEnv idleSearchEnv stFaiss "wheat" 5 =
      simple_keyword_search "wheat" 5 :=
  ⟨rfl, rfl, rfl, rfl,
   c1_search_degrades_on_vector_error simpleInitEnv idleSearchEnv stFaiss "wheat" 5
     rfl rfl rfl (Or.inl ⟨"embedder unavailable", rfl⟩)⟩

/-- C5: with the keyword-fallback backend active, the query
`"I have wheat rust disease"` yields exactly the crop advisory (score 0.9)
followed by the disease advisory (score 0.8), and no fertilizer entry. -/
theorem c5_keyword_fallback_determinism :
    search simpleInitEnv idleSearchEnv fallbackState "I have wheat rust disease" 5 =
      [⟨9/10, .text cropInfoMsg, some "crop_info", Option.none⟩,
       ⟨4/5, .text diseaseInfoMsg, some "disease_info", Option.none⟩] := rfl

/-- C7: on the vector-backed path every candidate id returned by the
k-nearest-neighbour query that does not resolve in the knowledge store is
silently dropped — every emitted result carries a resolved id, no error is
raised and nothing is padded — and with an empty knowledge store the result
is the empty list. -/
theorem c7_vector_search_drops_unresolved (ienv : InitEnv) (env : SearchEnv)
    (st : RAGState) (q : String) (k : Nat) (v : List ℚ) (cands : List (ℚ × Int))
    {m : EmbModel}
    (hinit : st.is_initialized = true)
    (hvdb : st.vector_db = VectorDB.faiss)
    (hm : st.embeddings_model = some m)
    (henc : env.encode q = .ok v)
    (hknn : env.knn v k = .ok cands) :
    search ienv env st q k = resolveCandidates st.knowledge_base cands ∧
    (∀ r, r ∈ search ienv env st q k → ∃ i d, r.index = some i ∧
      kbLookup st.knowledge_base (intStr i) = some d ∧ r.content = RContent.entry d) ∧
    (search ienv env st q k).length ≤ cands.length ∧
    (st.knowledge_base = [] → search ienv env st q k = []) := by
  have hs : search ienv env st q k = resolveCandidates st.knowledge_base cands := by
    simp [search, hinit, searchBody, hvdb, hm, henc, hknn]
  refine ⟨hs, ?_, ?_, ?_⟩
  · rw [hs]
    intro r hr
    simp only [resolveCandidates, List.mem_filterMap] at hr
    obtain ⟨c, _, hmc⟩ := hr
    cases hk : kbLookup st.knowledge_base (intStr c.2) with
    | none => rw [hk] at hmc; cases hmc
    | some d =>
      rw [hk] at hmc
      cases hmc
      exact ⟨c.2, d, rfl, hk, rfl⟩
  · rw [hs]; exact resolve_length_le _ _
  · intro hkb
    rw [hs, hkb]
    induction cands with
    | nil => rfl
    | cons c cs ih => simp [resolveCandidates, kbLookup]

/-- Witness for C7: a FAISS-backed state with an empty knowledge store and a
k-nearest-neighbour oracle returning one unresolvable candidate. -/
theorem c7_vector_search_witness :
    (let env : SearchEnv :=
      { encode := fun _ => .ok [0], knn := fun _ _ => .ok [(1/2, 0)], idxAdd := .ok () };
     let st : RAGState :=
      { vector_db := .faiss, embeddings_model := some .mock,
        knowledge_base := [], is_initialized := true };
     search simpleInitEnv env st "wheat" 5 = resolveCandidates [] [(1/2, 0)] ∧
       st.knowledge_base = [] ∧ search simpleInitEnv env st "wheat" 5 = []) := by
  refine ⟨(c7_vector_search_drops_unresolved simpleInitEnv _ _ "wheat" 5 [0] [(1/2, 0)]
    rfl rfl rfl rfl rfl).1, rfl,
    (c7_vector_search_drops_unresolved simpleInitEnv _ _ "wheat" 5 [0] [(1/2, 0)]
    rfl rfl rfl rfl rfl).2.2.2 rfl⟩

/-- C3: `initialize` never raises to its caller — its whole body sits under a
catch-all handler whose fallback path performs only infallible assignments
(modelled by totality of `Krishi.initializeService`) — and every outcome,
including an unhandled exception in any of the three steps, leaves the
readiness flag set, the exceptional outcomes landing exactly on the
last-resort fallback state (stub embedder, no index, baseline knowledge). -/
theorem c3_initialize_always_ready (env : InitEnv) (st : RAGState) :
    (initializeService env st).is_initialized = true ∧
    (∀ e, initializeBody env st = .error e → initializeService env st = fallbackState) := by
  refine ⟨initializeService_ready env st, ?_⟩
  intro e he
  unfold initializeService
  rw [he]

/-- Witness for C3: an unhandled exception in the backend-selection step
still ends in the ready fallback state. -/
theorem c3_initialize_witness :
    (initializeService raisingInitEnv freshState).is_initialized = true ∧
    initializeService raisingInitEnv freshState = fallbackState :=
  ⟨(c3_initialize_always_ready raisingInitEnv freshState).1,
   (c3_initialize_always_ready raisingInitEnv freshState).2
     "exception escaping vector database setup" rfl⟩

/-- The first entry of the first vector returned by the stub embedder is the
draw at the generator's current cursor. -/
theorem mock_first_entry (stream : Nat → ℚ) (pos : Nat) (t : String) (ts : List String) :
    (((MockEmbeddingsModel.encode stream pos (t :: ts)).1.headD []).headD 0) = stream pos := by
  have h384 : (384 : Nat) = 383 + 1 := rfl
  simp only [MockEmbeddingsModel.encode, List.length_cons]
  rw [List.range_succ_eq_map ts.length]
  simp only [List.map_cons, List.headD_cons]
  rw [h384, List.range_succ_eq_map 383]
  simp only [List.map_cons, List.headD_cons]
  norm_num

/-- Counterexample to C9 as stated: `MockEmbeddingsModel.encode` draws fresh
values from the global NumPy generator (`np.random.rand`), whose state
advances with each call, so two successive calls on the same one-element
batch return different outputs (here under the generator stream n ↦ n). -/
theorem c9_stub_counterexample :
    (MockEmbeddingsModel.encode (fun n => (n : ℚ)) 0 ["a"]).1 ≠
    (MockEmbeddingsModel.encode (fun n => (n : ℚ))
      (MockEmbeddingsModel.encode (fun n => (n : ℚ)) 0 ["a"]).2 ["a"]).1 := by
  intro h
  have h1 := congrArg (fun l => (l.headD []).headD 0) h
  simp only [mock_first_entry] at h1
  have h2 : (MockEmbeddingsModel.encode (fun n => (n : ℚ)) 0 ["a"]).2 = 384 := rfl
  rw [h2] at h1
  norm_num at h1

/-- C9 (amended): the stub embedder's output shape is deterministic — one
384-dimensional vector per input text on every call — though the values are
fresh draws from the advancing global generator. -/
theorem c9_stub_fixed_shape (stream : Nat → ℚ) (pos : Nat) (texts : List String) :
    (MockEmbeddingsModel.encode stream pos texts).1.length = texts.length ∧
    ∀ row ∈ (MockEmbeddingsModel.encode stream pos texts).1, row.length = 384 := by
  constructor
  · simp [MockEmbeddingsModel.encode]
  · intro row hrow
    simp only [MockEmbeddingsModel.encode, List.mem_map] at hrow
    obtain ⟨i, _, rfl⟩ := hrow
    simp

/-- Witness for C9 (amended): the stub embedder returns two 384-entry rows
for a two-text batch. -/
theorem c9_stub_fixed_shape_witness :
    (MockEmbeddingsModel.encode (fun _ => (0 : ℚ)) 0 ["a", "b"]).1.length = 2 ∧
    ∀ row ∈ (MockEmbeddingsModel.encode (fun _ => (0 : ℚ)) 0 ["a", "b"]).1,
      row.length = 384 :=
  c9_stub_fixed_shape (fun _ => (0 : ℚ)) 0 ["a", "b"]

/-- C10: a query whose whitespace tokenization is empty makes the simple
text search return the empty list, and the score division `score /
len(query_terms)` is only ever evaluated for emitted results, which force at
least one query token (so the divisor is positive). -/
theorem c10_text_search_no_zero_divisor (kb : KB) (q : String) (k : Nat) :
    (pyTokens (pyLower q) = [] → simple_text_search kb q k = []) ∧
    (∀ r, r ∈ simple_text_search kb q k → 0 < (pyTokens (pyLower q)).length) := by
  constructor
  · intro h
    have hc : textCandidates kb (pyTokens (pyLower q)) = [] := by
      rw [h]
      apply List.flatMap_eq_nil_iff.mpr
      intro ci _
      apply List.flatMap_eq_nil_iff.mpr
      intro it _
      simp [hitCount]
    simp [simple_text_search, hc, sortByScoreDesc]
  · intro r hr
    simp only [simple_text_search] at hr
    have hr2 := mem_sortByScoreDesc.mp (List.mem_of_mem_take hr)
    simp only [textCandidates, List.mem_flatMap] at hr2
    obtain ⟨ci, _, it, _, hin⟩ := hr2
    by_cases hh : 0 < hitCount (pyTokens (pyLower q)) (contentText ci.1 it.1 it.2)
    · rcases List.eq_nil_or_concat (pyTokens (pyLower q)) with h0 | ⟨_, _, h0⟩
      · rw [h0] at hh
        simp [hitCount] at hh
      · simp [h0]
    · rw [if_neg hh] at hin
      cases hin

/-- C2: for every non-empty query, every `top_k ≥ 1` and every active
backend, `search` returns at most `top_k` results ordered by non-increasing
score, each carrying a score together with either a resolved document dict
or an advisory string.  For the vector backend this relies on the FAISS
contract that a k-nearest-neighbour query returns at most `top_k`
candidates ordered by decreasing similarity, stated as the hypothesis on
the index oracle. -/
theorem c2_search_bounded_and_sorted (ienv : InitEnv) (env : SearchEnv)
    (st : RAGState) (q : String) (k : Nat)
    (hinit : st.is_initialized = true) (_hq : q ≠ "") (_hk : 1 ≤ k)
    (hknn : ∀ v cands, env.knn v k = Except.ok cands →
      cands.length ≤ k ∧ cands.Pairwise (fun a b => b.1 ≤ a.1)) :
    (search ienv env st q k).length ≤ k ∧ ScoresDesc (search ienv env st q k) ∧
    ∀ r, r ∈ search ienv env st q k →
      (∃ d, r.content = RContent.entry d) ∨ (∃ s, r.content = RContent.text s) := by
  have hcontent : ∀ l : List SearchResult, ∀ r : SearchResult, r ∈ l →
      (∃ d, r.content = RContent.entry d) ∨ (∃ s, r.content = RContent.text s) := by
    intro l r _
    cases hc : r.content
    · exact Or.inl ⟨_, rfl⟩
    · exact Or.inr ⟨_, rfl⟩
  have hkw : (simple_keyword_search q k).length ≤ k ∧
      ScoresDesc (simple_keyword_search q k) ∧
      ∀ r, r ∈ simple_keyword_search q k →
        (∃ d, r.content = RContent.entry d) ∨ (∃ s, r.content = RContent.text s) :=
    ⟨keyword_search_length_le q k, keyword_search_sorted q k, hcontent _⟩
  have hsearch : search ienv env st q k =
      match searchBody env st q k with
      | .ok r => r
      | .error _ => simple_keyword_search q k := by
    simp [search, hinit]
  rw [hsearch]
  by_cases h1 : st.vector_db = VectorDB.fallback
  · have hb : searchBody env st q k = .ok (simple_keyword_search q k) := by
      simp [searchBody, h1]
    simp only [hb]
    exact hkw
  · by_cases h2 : st.vector_db = VectorDB.simple
    · have hb : searchBody env st q k =
          .ok (simple_text_search st.knowledge_base q k) := by
        simp [searchBody, h1, h2]
      simp only [hb]
      exact ⟨text_search_length_le _ q k, text_search_sorted _ q k, hcontent _⟩
    · cases hm : st.embeddings_model with
      | none =>
        have hb : searchBody env st q k = .ok (simple_keyword_search q k) := by
          simp [searchBody, h1, h2, hm]
        simp only [hb]
        exact hkw
      | some m =>
        cases henc : env.encode q with
        | error e =>
          have hb : searchBody env st q k = .error e := by
            simp [searchBody, h1, h2, hm, henc]
          simp only [hb]
          exact hkw
        | ok v =>
          by_cases h3 : st.vector_db = VectorDB.faiss
          · cases hknn2 : env.knn v k with
            | error e =>
              have hb : searchBody env st q k = .error e := by
                simp [searchBody, h1, h2, hm, henc, h3, hknn2]
              simp only [hb]
              exact hkw
            | ok cands =>
              have hb : searchBody env st q k =
                  .ok (resolveCandidates st.knowledge_base cands) := by
                simp [searchBody, h1, h2, hm, henc, h3, hknn2]
              simp only [hb]
              obtain ⟨hlen, hsorted⟩ := hknn v cands hknn2
              exact ⟨le_trans (resolve_length_le _ _) hlen,
                resolve_sorted _ hsorted, hcontent _⟩
          · have hb : searchBody env st q k = .ok (simple_keyword_search q k) := by
              simp [searchBody, h1, h2, hm, henc, h3]
            simp only [hb]
            exact hkw

/-- Witness for C2 on the keyword-fallback backend at `top_k = 1`. -/
theorem c2_search_witness :
    ("wheat rust" : String) ≠ "" ∧ 1 ≤ 1 ∧
    ((search simpleInitEnv idleSearchEnv fallbackState "wheat rust" 1).length ≤ 1 ∧
     ScoresDesc (search simpleInitEnv idleSearchEnv fallbackState "wheat rust" 1) ∧
     ∀ r, r ∈ search simpleInitEnv idleSearchEnv fallbackState "wheat rust" 1 →
       (∃ d, r.content = RContent.entry d) ∨ (∃ s, r.content = RContent.text s)) :=
  ⟨by decide, le_refl 1,
   c2_search_bounded_and_sorted simpleInitEnv idleSearchEnv fallbackState "wheat rust" 1
     rfl (by decide) (le_refl 1) (fun v cands h => by cases h)⟩

set_option maxRecDepth 40000 in
/-- C6: a freshly initialized service with no persisted store, on the
simple-text backend over the baseline knowledge set, returns the
`diseases.bacterial_blight` document as a tied-top-scored result of
`search("bacterial blight rice", top_k=3)` (tied at score 1 with
`crops.rice`, which the stable sort keeps first). -/
theorem c6_baseline_blight_top_result :
    ∃ r, r ∈ search simpleInitEnv idleSearchEnv stSimple "bacterial blight rice" 3 ∧
      r.content = RContent.entry [("category", .str "diseases"),
        ("item", .str "bacterial_blight"), ("data", .dict bacterialBlightData)] ∧
      ∀ r2, r2 ∈ search simpleInitEnv idleSearchEnv stSimple "bacterial blight rice" 3 →
        r2.score ≤ r.score := by
  have hred : search simpleInitEnv idleSearchEnv stSimple "bacterial blight rice" 3 =
      simple_text_search basicKnowledgeBase "bacterial blight rice" 3 := rfl
  have hcand : textCandidates basicKnowledgeBase (pyTokens (pyLower "bacterial blight rice")) =
      [⟨((1 : Nat) : ℚ) / ((3 : Nat) : ℚ), wheatHit.content, some "text_search", Option.none⟩,
       ⟨((3 : Nat) : ℚ) / ((3 : Nat) : ℚ), riceHit.content, some "text_search", Option.none⟩,
       ⟨((3 : Nat) : ℚ) / ((3 : Nat) : ℚ), blightHit.content, some "text_search", Option.none⟩,
       ⟨((1 : Nat) : ℚ) / ((3 : Nat) : ℚ), ureaHit.content, some "text_search", Option.none⟩,
       ⟨((1 : Nat) : ℚ) / ((3 : Nat) : ℚ), dapHit.content, some "text_search", Option.none⟩] := rfl
  have e13 : ((1 : Nat) : ℚ) / ((3 : Nat) : ℚ) = 1/3 := by norm_num
  have e33 : ((3 : Nat) : ℚ) / ((3 : Nat) : ℚ) = 1 := by norm_num
  rw [e13, e33] at hcand
  have hsts : simple_text_search basicKnowledgeBase "bacterial blight rice" 3 =
      [riceHit, blightHit, wheatHit] := by
    simp only [simple_text_search]
    rw [hcand]
    have l1 : ¬((1:ℚ)/3 < 1/3) := by norm_num
    have l3 : ¬((1:ℚ) < 1) := by norm_num
    have l4 : ((1:ℚ)/3 < 1) := by norm_num
    simp only [sortByScoreDesc, List.foldr_cons, List.foldr_nil, insertDesc,
      wheatHit, riceHit, blightHit, ureaHit, dapHit, l1, l3, l4, if_true, if_false,
      ite_true, ite_false]
    norm_num [insertDesc]
  rw [hred, hsts]
  refine ⟨blightHit, by simp, rfl, ?_⟩
  intro r2 hr2
  rcases List.mem_cons.mp hr2 with rfl | hr2
  · norm_num [riceHit, blightHit]
  · rcases List.mem_cons.mp hr2 with rfl | hr2
    · norm_num [blightHit]
    · rcases List.mem_cons.mp hr2 with rfl | hr2
      · norm_num [wheatHit, blightHit]
      · cases hr2

/-- C4: on an initialized service with a working embedder, `add_document`
assigns `len(knowledge_base)` as the new id, stores the
`{content, metadata, added_at}` record under that id (appending, since the
key is fresh), returns the id, and a successive call returns the next id, so
ids grow strictly; on embedding failure it returns `None` without mutating
the store (`add_document` is total in the model: the catch-all `except`
turns every exception into the `None` return). -/
theorem c4_add_document_contract (ienv : InitEnv) (env : SearchEnv) (st : RAGState)
    (content content2 : String) (md md2 : List (String × PyVal)) (now now2 : String)
    {m : EmbModel} {v1 v2 : List ℚ}
    (hinit : st.is_initialized = true)
    (hm : st.embeddings_model = some m)
    (henc1 : env.encode content = Except.ok v1)
    (henc2 : env.encode content2 = Except.ok v2)
    (hidx : st.vector_db = VectorDB.faiss → env.idxAdd = Except.ok ())
    (hfresh : kbHasKey st.knowledge_base (natStr st.knowledge_base.length) = false) :
    add_document ienv env st content md now =
      (some st.knowledge_base.length,
       { st with knowledge_base :=
           st.knowledge_base ++ [(natStr st.knowledge_base.length, docRecord content md now)] }) ∧
    kbLookup (add_document ienv env st content md now).2.knowledge_base
        (natStr st.knowledge_base.length) = some (docRecord content md now) ∧
    (add_document ienv env (add_document ienv env st content md now).2 content2 md2 now2).1 =
      some (st.knowledge_base.length + 1) ∧
    st.knowledge_base.length < st.knowledge_base.length + 1 ∧
    (∀ env2 : SearchEnv, ∀ e, env2.encode content = Except.error e →
      add_document ienv env2 st content md now = (Option.none, st)) := by
  have hvadd : (if st.vector_db = VectorDB.faiss then env.idxAdd else Except.ok ()) =
      Except.ok () := by
    by_cases h : st.vector_db = VectorDB.faiss
    · simp [h, hidx h]
    · simp [h]
  have h1 : add_document ienv env st content md now =
      (some st.knowledge_base.length,
       { st with knowledge_base :=
           st.knowledge_base ++ [(natStr st.knowledge_base.length, docRecord content md now)] }) := by
    simp [add_document, hinit, add_documentBody, hm, henc1, hvadd, kbSet_fresh hfresh]
  refine ⟨h1, ?_, ?_, Nat.lt_succ_self _, ?_⟩
  · rw [h1]
    rw [show st.knowledge_base ++ [(natStr st.knowledge_base.length, docRecord content md now)] =
      kbSet st.knowledge_base (natStr st.knowledge_base.length) (docRecord content md now) from
      (kbSet_fresh hfresh _).symm]
    exact kbLookup_kbSet_fresh hfresh _
  · rw [h1]
    simp [add_document, hinit, add_documentBody, hm, henc2, hvadd]
  · intro env2 e he
    simp [add_document, hinit, add_documentBody, hm, he]

/-- Witness for C4: adding a document to the fresh simple-text service
returns id 3 (the store holds the three baseline categories), and a second
add returns id 4. -/
theorem c4_add_document_witness :
    (add_document simpleInitEnv okSearchEnv stSimple "Neem oil controls aphids"
        [("source", PyVal.str "test")] "t0").1 = some 3 ∧
    (add_document simpleInitEnv okSearchEnv
        (add_document simpleInitEnv okSearchEnv stSimple "Neem oil controls aphids"
          [("source", PyVal.str "test")] "t0").2 "second note" [] "t1").1 = some 4 := by
  have h := c4_add_document_contract simpleInitEnv okSearchEnv stSimple
    "Neem oil controls aphids" "second note" [("source", PyVal.str "test")] [] "t0" "t1"
    rfl rfl rfl rfl (fun hcontra => nomatch hcontra) rfl
  exact ⟨by rw [h.1]; rfl, by rw [h.2.2.1]; rfl⟩

/-- C8: two consecutive `initialize` calls leave the service ready with
exactly the knowledge base a single call produces: every backend tier
assigns (rather than appends to) the knowledge base, and the final merge of
on-disk fragments is idempotent, so baseline entries are never duplicated.
The fragment dicts are assumed key-distinct, as every Python dict is. -/
theorem c8_initialize_idempotent (env : InitEnv) (st : RAGState)
    (_hp : env.faissPersisted = Option.none)
    (hf : ∀ f, env.fragments = some f → KeysNodup f) :
    (initializeService env (initializeService env st)).knowledge_base =
      (initializeService env st).knowledge_base ∧
    (initializeService env (initializeService env st)).is_initialized = true := by
  refine ⟨?_, initializeService_ready _ _⟩
  by_cases h1 : env.raiseEmbed = true
  · have hc : ∀ X : RAGState, initializeService env X = fallbackState := fun X => by
      simp [initializeService, initializeBody, h1]
    rw [hc, hc]
  · by_cases h2 : env.raiseBackend = true
    · have hc : ∀ X : RAGState, initializeService env X = fallbackState := fun X => by
        simp [initializeService, initializeBody, h1, h2]
      rw [hc, hc]
    · by_cases h3 : env.raiseLoad = true
      · have hc : ∀ X : RAGState, initializeService env X = fallbackState := fun X => by
          simp [initializeService, initializeBody, h1, h2, h3]
        rw [hc, hc]
      · have hkb : ∀ X : RAGState, (initializeService env X).knowledge_base =
            load_knowledge_base env
              (selectBackend env (initialize_embeddings_model env X)).knowledge_base :=
          fun X => by simp [initializeService, initializeBody, h1, h2, h3]
        have hemb : ∀ X : RAGState,
            (initialize_embeddings_model env X).knowledge_base = X.knowledge_base :=
          fun X => rfl
        rcases selectBackend_kb_cases env with hid | ⟨c, hc⟩
        · rw [hkb (initializeService env st), hkb st, hid, hid, hemb, hemb, hkb st,
            hid, hemb]
          exact load_knowledge_base_idem env st.knowledge_base hf
        · rw [hkb (initializeService env st), hkb st, hc, hc]

/-- Witness for C8: two initializations of the fresh deployment leave the
baseline knowledge base unchanged and the service ready. -/
theorem c8_initialize_idempotent_witness :
    (initializeService simpleInitEnv (initializeService simpleInitEnv freshState)).knowledge_base =
      (initializeService simpleInitEnv freshState).knowledge_base ∧
    (initializeService simpleInitEnv
      (initializeService simpleInitEnv freshState)).is_initialized = true :=
  c8_initialize_idempotent simpleInitEnv freshState rfl (fun _ h => nomatch h)

/-- Witness for C10: the whitespace-only query returns the empty list on the
baseline knowledge set. -/
theorem c10_text_search_witness :
    pyTokens (pyLower "   ") = [] ∧
    simple_text_search basicKnowledgeBase "   " 5 = [] ∧
    ∀ r, r ∈ simple_text_search basicKnowledgeBase "   " 5 →
      0 < (pyTokens (pyLower "   ")).length :=
  ⟨rfl, (c10_text_search_no_zero_divisor basicKnowledgeBase "   " 5).1 rfl,
   (c10_text_search_no_zero_divisor basicKnowledgeBase "   " 5).2⟩

end Krishi
